import Mathlib

/-!
Verification of the worker-coordinator core of the `integration_tests`
parallelizer (`src/fixtures/parallelizer/remote.py`, class `SlaveManager`
and function `serialize_report`), as a shallow embedding in Lean 4.

The master process is modelled by the sequence of replies it sends; the
zmq socket is modelled by threading those replies into each operation.
The code is Python 2 (`u''` literals, `py.path.local`), so a
`StopIteration` escaping from inside a generator body silently ends the
generator; the embedding of `_test_generator` reflects that.
-/

namespace Remote

/-- A JSON value travelling over the zmq channel.  `send_event` only ever
compares a reply against the string literals `"die"` and `"ack"`, and the
only structured replies used by the protocol are lists of test
identifiers, so this small universe suffices. -/
inductive JVal where
  | jstr (s : String)
  | jlist (xs : List String)
  | jnull
  deriving DecidableEq, Repr

/-- `SlaveManager.send_event`: sends the payload (modelled by its effect
only), blocks for one reply `recv`.  `recv == 'die'` raises `SystemExit`
(modelled as `.error ()`), `recv == 'ack'` returns `None`
(`.ok none`), any other reply is returned to the caller
(`.ok (some recv)`). -/
def send_event (recv : JVal) : Except Unit (Option JVal) :=
  if recv = JVal.jstr "die" then Except.error ()
  else if recv = JVal.jstr "ack" then Except.ok none
  else Except.ok (some recv)

/-- A collected pytest item; for the coordination protocol only its
`nodeid` matters, `payload` stands for the rest of the test object. -/
structure TestItem where
  nodeid : String
  payload : Nat := 0
  deriving DecidableEq, Repr

/-- `self.collection = {item.nodeid: item for item in session.items}`:
a dict comprehension, so a later item with the same nodeid overwrites an
earlier one; lookup therefore finds the last matching item. -/
def buildCollection (items : List TestItem) : String → Option TestItem :=
  fun id => (items.reverse).find? (fun it => it.nodeid = id)

/-- The sequence of nodeids the master delivers across `need_tests`
replies: `_iter_nodes` loops, breaking at the first empty/falsy reply
(`if not node_ids: break`), otherwise yielding each id of the batch. -/
def deliveredIds : List (List String) → List String
  | [] => []
  | b :: rest => if b.isEmpty then [] else b ++ deliveredIds rest

/-- Number of `need_tests` requests `_iter_nodes` sends when its caller
drains it: one per batch up to and including the first empty reply. -/
def needTestsCount : List (List String) → Nat
  | [] => 0
  | b :: rest => if b.isEmpty then 1 else 1 + needTestsCount rest

/-- The body of `_iter_nodes`' inner loop: `yield self.collection[nodeid]`
for each delivered id.  A nodeid absent from the collection raises
`KeyError` at the point it is reached: the result is the items yielded
before that point, together with the offending id if any. -/
def lookupNodes (collection : String → Option TestItem) :
    List String → List TestItem × Option String
  | [] => ([], none)
  | id :: rest =>
    match collection id with
    | none => ([], some id)
    | some it =>
      let r := lookupNodes collection rest
      (it :: r.1, r.2)

/-- `SlaveManager._test_generator` on a fully delivered node stream:
`run_node = next(node_iter)` (a `StopIteration` here ends the generator,
Python 2 semantics), then each further node is yielded as
`(run_node, next_node)`, and finally `(run_node, None)`. -/
def test_generator : List TestItem → List (TestItem × Option TestItem)
  | [] => []
  | [x] => [(x, none)]
  | x :: y :: rest => (x, some y) :: test_generator (y :: rest)

/-- Adjacent pairs of a list; `_test_generator`'s yields when the
underlying node iterator raises before being exhausted (the pending
`(last, None)` pair is then never produced). -/
def adjPairs : List TestItem → List (TestItem × Option TestItem)
  | x :: y :: rest => (x, some y) :: adjPairs (y :: rest)
  | _ => []

/-- `_test_generator` over the output of `_iter_nodes`: the yielded
pairs and the `KeyError` nodeid that escapes the generator, if any.
When `_iter_nodes` raises, the exception surfaces from the `next` /
`for` pull inside `_test_generator`, after the adjacent pairs of the
already-yielded nodes and before the final `(last, None)` pair. -/
def genPairs (ns : List TestItem) (err : Option String) :
    List (TestItem × Option TestItem) × Option String :=
  match err with
  | none => (test_generator ns, none)
  | some id => (adjPairs ns, some id)

/-- Whether the quit flag is set at the check performed after `k` tests
have completed: `qsig = some j` means the SIGQUIT handler ran while test
number `j` (1-based) was executing, `none` means no signal arrives. -/
def quitSet (qsig : Option Nat) (k : Nat) : Bool :=
  match qsig with
  | none => false
  | some j => j ≤ k

/-- The loop body of `pytest_runtestloop`: iterates the generator's
pairs; after each item the quit flag is checked once (`if
self.quit_signaled: break`).  Returns the items iterated and whether the
loop pulled the generator to exhaustion (`true`) or left via `break`
(`false`, in which case a pending `KeyError` in the generator is never
raised). -/
def runLoopIter (qsig : Option Nat) :
    List (TestItem × Option TestItem) → Nat → List TestItem × Bool
  | [], _ => ([], true)
  | (it, _) :: rest, k =>
    if quitSet qsig (k + 1) then ([it], false)
    else
      let r := runLoopIter qsig rest (k + 1)
      (it :: r.1, r.2)

/-- One full run of `pytest_runtestloop` for a slave whose local
collection is built from `items` and whose master sends the `need_tests`
replies `batches`, with quit signal `qsig` and the `--collect-only`
option `collectonly`.  Produces the items passed to
`pytest_runtest_protocol` (none in collect-only mode, where the loop
only messages the nodeid) and the nodeid of the `KeyError` surfaced to
the caller, if the loop reached it. -/
def runOutcome (items : List TestItem) (batches : List (List String))
    (qsig : Option Nat) (collectonly : Bool) :
    List TestItem × Option String :=
  let nsErr := lookupNodes (buildCollection items) (deliveredIds batches)
  let pe := genPairs nsErr.1 nsErr.2
  let r := runLoopIter qsig pe.1 0
  (if collectonly then [] else r.1, if r.2 then pe.2 else none)

/-- `chainLinked ps` holds when in every two consecutive yielded pairs
the first element of the later pair equals the second element of the
earlier pair. -/
def chainLinked : List (TestItem × Option TestItem) → Bool
  | (_, b) :: (c, d) :: rest => (b = some c) && chainLinked ((c, d) :: rest)
  | _ => true

/-- How many yielded pairs carry the "no next test" marker. -/
def noneCount (ps : List (TestItem × Option TestItem)) : Nat :=
  (ps.filter (fun p => p.2 = none)).length

/-- The mutable fields of `SlaveManager` relevant to the protocol:
`quit_signaled` (initialised `False`) and the collection recorded by
`pytest_collection_finish` (`session` / `collection`, initialised
`None`). -/
structure SlaveState where
  quit_signaled : Bool
  sessionItems : Option (List TestItem)
  deriving DecidableEq, Repr

/-- The state of a freshly constructed `SlaveManager`. -/
def initialState : SlaveState :=
  { quit_signaled := false, sessionItems := none }

/-- One invocation of a `SlaveManager` method, carrying the reply (or
replies) the master will send to the event(s) that method emits. -/
inductive SlaveOp where
  | opSendEvent (name : String) (reply : JVal)
  | opMessage (reply : JVal)
  | opCollectionFinish (items : List TestItem) (reply : JVal)
  | opLogstart (reply : JVal)
  | opLogreport (reply : JVal)
  | opInternalerror (reply : JVal)
  | opHandleQuit (reply : JVal)
  | opShutdown (reply1 reply2 : JVal)
  deriving DecidableEq, Repr

/-- Whether a reply makes `send_event` raise `SystemExit`. -/
def isDie (r : JVal) : Bool :=
  r = JVal.jstr "die"

/-- One method call of `SlaveManager`: the event names it sends over the
socket, in order, and the resulting state (`none` when `send_event`
raised `SystemExit` because the master replied `"die"`).

- `send_event` / `message` / the logstart, logreport, internalerror
  hooks: send one event, change no field;
- `pytest_collection_finish`: records `self.collection` from the session
  items, then sends `collectionfinish`;
- `handle_quit`: calls `self.message(...)` (one `message` event over the
  socket) and then sets `self.quit_signaled = True`;
- `shutdown`: `self.message(...)`, then `send_event('shutdown')`, then
  sets `self.quit_signaled = True`. -/
def step (s : SlaveState) : SlaveOp → List String × Option SlaveState
  | SlaveOp.opSendEvent name r =>
    ([name], if isDie r then none else some s)
  | SlaveOp.opMessage r =>
    (["message"], if isDie r then none else some s)
  | SlaveOp.opCollectionFinish items r =>
    (["collectionfinish"],
      if isDie r then none else some { s with sessionItems := some items })
  | SlaveOp.opLogstart r =>
    (["runtest_logstart"], if isDie r then none else some s)
  | SlaveOp.opLogreport r =>
    (["runtest_logreport"], if isDie r then none else some s)
  | SlaveOp.opInternalerror r =>
    (["internalerror"], if isDie r then none else some s)
  | SlaveOp.opHandleQuit r =>
    (["message"],
      if isDie r then none else some { s with quit_signaled := true })
  | SlaveOp.opShutdown r1 r2 =>
    if isDie r1 then (["message"], none)
    else if isDie r2 then (["message", "shutdown"], none)
    else (["message", "shutdown"], some { s with quit_signaled := true })

/-- A sequence of method calls, stopping at the first `SystemExit`. -/
def runOps (s : SlaveState) : List SlaveOp → Option SlaveState
  | [] => some s
  | op :: rest =>
    match (step s op).2 with
    | none => none
    | some s' => runOps s' rest

/-- A Python value occurring in a `TestReport.__dict__`, as
`serialize_report` distinguishes them:

- `vstr`: an ordinary string (serializable);
- `vnone`: `None` (serializable);
- `vlocal p`: a `py.path.local` instance (not JSON-serializable),
  whose `str()` is the path `p`;
- `vrepr t`: a representation object having a `toterminal` attribute
  (not serializable), whose `str()` is `t`;
- `vresult n`: a raw result object (list of raw report entries, not
  serializable), `n` standing for its content. -/
inductive RVal where
  | vstr (s : String)
  | vnone
  | vlocal (p : String)
  | vrepr (t : String)
  | vresult (n : Nat)
  deriving DecidableEq, Repr

/-- `hasattr(v, 'toterminal')`: only representation objects have it. -/
def hasToTerminal : RVal → Bool
  | RVal.vrepr _ => true
  | _ => false

/-- `isinstance(v, local)` for `local = py.path.local`. -/
def isLocal : RVal → Bool
  | RVal.vlocal _ => true
  | _ => false

/-- Python `str(v)` for the values above. -/
def strOf : RVal → String
  | RVal.vstr s => s
  | RVal.vnone => "None"
  | RVal.vlocal p => p
  | RVal.vrepr t => t
  | RVal.vresult n => toString n

/-- A value the zmq JSON transport accepts. -/
def serializable : RVal → Bool
  | RVal.vstr _ => true
  | RVal.vnone => true
  | _ => false

/-- A `TestReport.__dict__` as an association list with distinct keys
(a Python dict iterated in key order). -/
abbrev ReportDict := List (String × RVal)

/-- Python dict lookup `d[k]` / attribute read, as an `Option`. -/
def dictGet (d : ReportDict) (k : String) : Option RVal :=
  (d.find? (fun p => p.1 = k)).map (fun p => p.2)

/-- Python dict assignment `d[k] = v`: overwrites in place if the key is
present, appends otherwise. -/
def dictSet (d : ReportDict) (k : String) (v : RVal) : ReportDict :=
  if d.any (fun p => p.1 = k) then
    d.map (fun p => if p.1 = k then (k, v) else p)
  else d ++ [(k, v)]

/-- The body of `serialize_report`'s `for name in d` loop, applied to
one entry: a `py.path.local` value is replaced by its string, otherwise
the entry under the key `"result"` is replaced by `None`, and every
other entry is left alone. -/
def serializeEntry (p : String × RVal) : String × RVal :=
  if isLocal p.2 then (p.1, RVal.vstr (strOf p.2))
  else if p.1 = "result" then (p.1, RVal.vnone)
  else p

/-- `serialize_report(rep)` for a report whose `__dict__` is `rep`:
`d = rep.__dict__.copy()`; `d['longrepr']` is set to
`str(rep.longrepr)` when `rep.longrepr` has a `toterminal` attribute and
to `rep.longrepr` itself otherwise; then the loop stringifies
`py.path.local` values and nulls the `"result"` entry.  Reading
`rep.longrepr` on a report without that attribute raises
`AttributeError` (`.error ()`). -/
def serialize_report (rep : ReportDict) : Except Unit ReportDict :=
  match dictGet rep "longrepr" with
  | none => Except.error ()
  | some lr =>
    let d := rep
    let d := if hasToTerminal lr then dictSet d "longrepr" (RVal.vstr (strOf lr))
             else dictSet d "longrepr" lr
    Except.ok (d.map serializeEntry)

/-- The pair of dicts live during a call of `serialize_report`: the
report's own `__dict__` and the working dict `d`. -/
structure SerState where
  repDict : ReportDict
  d : ReportDict
  deriving DecidableEq, Repr

/-- `serialize_report` with the report's `__dict__` tracked alongside
the working dict: `d = rep.__dict__.copy()` makes `d` a distinct dict
initially equal to `rep`, and every subsequent assignment in the source
targets `d`, so each step rewrites only the `d` component while the
`repDict` component is carried through untouched.  The final state
carries the report's dict and the transmitted dict (meaningful only
when no `AttributeError` was raised, which the `Except` records). -/
def serializeReportSteps (rep : ReportDict) : Except Unit SerState :=
  match dictGet rep "longrepr" with
  | none => Except.error ()
  | some lr =>
    if hasToTerminal lr then
      Except.ok (SerState.mk rep
        ((dictSet rep "longrepr" (RVal.vstr (strOf lr))).map serializeEntry))
    else
      Except.ok (SerState.mk rep
        ((dictSet rep "longrepr" lr).map serializeEntry))

/-! Helper lemmas. -/

theorem test_generator_head (y : TestItem) (rest : List TestItem) :
    ∃ o ps, test_generator (y :: rest) = (y, o) :: ps := by
  cases rest with
  | nil => exact ⟨none, [], rfl⟩
  | cons z r => exact ⟨some z, test_generator (z :: r), rfl⟩

theorem chainLinked_test_generator (ns : List TestItem) :
    chainLinked (test_generator ns) = true := by
  induction ns with
  | nil => rfl
  | cons x rest ih =>
    cases rest with
    | nil => rfl
    | cons y r =>
      obtain ⟨o, ps, h⟩ := test_generator_head y r
      have hx : test_generator (x :: y :: r)
          = (x, some y) :: test_generator (y :: r) := rfl
      rw [hx, h]
      rw [h] at ih
      simp [chainLinked]
      exact ih

theorem test_generator_last (ns : List TestItem) (h : ns ≠ []) :
    ∃ qs l, test_generator ns = qs ++ [(l, none)] ∧
      ∀ p ∈ qs, p.2 ≠ (none : Option TestItem) := by
  induction ns with
  | nil => exact absurd rfl h
  | cons x rest ih =>
    cases rest with
    | nil => exact ⟨[], x, rfl, by intro p hp; cases hp⟩
    | cons y r =>
      obtain ⟨qs, l, hq, hall⟩ := ih (by simp)
      refine ⟨(x, some y) :: qs, l, ?_, ?_⟩
      · have hx : test_generator (x :: y :: r)
            = (x, some y) :: test_generator (y :: r) := rfl
        rw [hx, hq]
        rfl
      · intro p hp
        cases hp with
        | head => simp
        | tail _ hmem => exact hall p hmem

theorem test_generator_fst_mem (ns : List TestItem) (a : TestItem)
    (o : Option TestItem) (h : (a, o) ∈ test_generator ns) : a ∈ ns := by
  induction ns with
  | nil => cases h
  | cons x rest ih =>
    cases rest with
    | nil =>
      cases h with
      | head => exact List.mem_cons_self _ _
      | tail _ hmem => cases hmem
    | cons y r =>
      have hx : test_generator (x :: y :: r)
          = (x, some y) :: test_generator (y :: r) := rfl
      rw [hx] at h
      cases h with
      | head => exact List.mem_cons_self _ _
      | tail _ hmem => exact List.mem_cons_of_mem x (ih hmem)

theorem adjPairs_fst_mem (ns : List TestItem) (a : TestItem)
    (o : Option TestItem) (h : (a, o) ∈ adjPairs ns) : a ∈ ns := by
  induction ns with
  | nil => cases h
  | cons x rest ih =>
    cases rest with
    | nil => cases h
    | cons y r =>
      have hx : adjPairs (x :: y :: r) = (x, some y) :: adjPairs (y :: r) := rfl
      rw [hx] at h
      cases h with
      | head => exact List.mem_cons_self _ _
      | tail _ hmem => exact List.mem_cons_of_mem x (ih hmem)

theorem genPairs_fst_mem (ns : List TestItem) (err : Option String)
    (a : TestItem) (o : Option TestItem)
    (h : (a, o) ∈ (genPairs ns err).1) : a ∈ ns := by
  cases err with
  | none => exact test_generator_fst_mem ns a o h
  | some id => exact adjPairs_fst_mem ns a o h

theorem runLoopIter_mem (qsig : Option Nat)
    (ps : List (TestItem × Option TestItem)) (k : Nat) (it : TestItem)
    (h : it ∈ (runLoopIter qsig ps k).1) :
    ∃ o, (it, o) ∈ ps := by
  induction ps generalizing k with
  | nil => cases h
  | cons p rest ih =>
    obtain ⟨a, o⟩ := p
    by_cases hq : quitSet qsig (k + 1) = true
    · simp [runLoopIter, hq] at h
      exact ⟨o, by rw [h]; exact List.mem_cons_self _ _⟩
    · simp only [runLoopIter, if_neg hq] at h
      rw [List.mem_cons] at h
      cases h with
      | inl h => exact ⟨o, by rw [h]; exact List.mem_cons_self _ _⟩
      | inr h =>
        obtain ⟨o', ho'⟩ := ih (k + 1) h
        exact ⟨o', List.mem_cons_of_mem _ ho'⟩

theorem lookupNodes_mem (coll : String → Option TestItem)
    (ids : List String) (it : TestItem)
    (h : it ∈ (lookupNodes coll ids).1) :
    ∃ id ∈ ids, coll id = some it := by
  induction ids with
  | nil => cases h
  | cons id rest ih =>
    simp only [lookupNodes] at h
    cases hc : coll id with
    | none => rw [hc] at h; cases h
    | some it' =>
      rw [hc] at h
      simp only [List.mem_cons] at h
      cases h with
      | inl h => exact ⟨id, List.mem_cons_self _ _, by rw [hc, h]⟩
      | inr h =>
        obtain ⟨id', hid', hcoll⟩ := ih h
        exact ⟨id', List.mem_cons_of_mem _ hid', hcoll⟩

theorem buildCollection_nodeid (items : List TestItem) (id : String)
    (it : TestItem) (h : buildCollection items id = some it) :
    it.nodeid = id := by
  unfold buildCollection at h
  have := List.find?_some h
  exact of_decide_eq_true this

theorem runLoopIter_no_signal (ps : List (TestItem × Option TestItem))
    (k : Nat) : runLoopIter none ps k = (ps.map Prod.fst, true) := by
  induction ps generalizing k with
  | nil => rfl
  | cons p rest ih =>
    obtain ⟨a, o⟩ := p
    have hq : quitSet none (k + 1) = false := rfl
    simp [runLoopIter, hq, ih (k + 1)]

theorem runLoopIter_signal (j : Nat) (ps : List (TestItem × Option TestItem))
    (k : Nat) (hk : k < j) :
    (runLoopIter (some j) ps k).1 = (ps.map Prod.fst).take (j - k) := by
  induction ps generalizing k with
  | nil => simp [runLoopIter]
  | cons p rest ih =>
    obtain ⟨a, o⟩ := p
    by_cases hj : j = k + 1
    · have hq : quitSet (some j) (k + 1) = true := by
        simp [quitSet, hj]
      have h1 : j - k = 1 := by omega
      simp [runLoopIter, hq, h1]
    · have hq : quitSet (some j) (k + 1) = false := by
        simp only [quitSet, decide_eq_false_iff_not]
        omega
      have hk' : k + 1 < j := by omega
      have h2 : j - k = (j - (k + 1)) + 1 := by omega
      simp [runLoopIter, hq, ih (k + 1) hk', h2]

theorem lookupNodes_missing (coll : String → Option TestItem)
    (ids : List String) (id : String) (hmem : id ∈ ids)
    (hnone : coll id = none) :
    (lookupNodes coll ids).2 ≠ none := by
  induction ids with
  | nil => cases hmem
  | cons id' rest ih =>
    simp only [lookupNodes]
    cases hc : coll id' with
    | none =>
      intro hcon
      cases hcon
    | some it =>
      rcases List.mem_cons.mp hmem with h | h
      · rw [h] at hnone
        rw [hnone] at hc
        cases hc
      · exact ih h

theorem dictGet_mem (d : ReportDict) (k : String) (v : RVal)
    (h : dictGet d k = some v) : (k, v) ∈ d := by
  unfold dictGet at h
  cases hf : d.find? (fun p => p.1 = k) with
  | none => rw [hf] at h; cases h
  | some p =>
    rw [hf] at h
    obtain ⟨p1, p2⟩ := p
    have hm := List.mem_of_find?_eq_some hf
    have hp := List.find?_some hf
    have hk : p1 = k := of_decide_eq_true hp
    have hv : p2 = v := Option.some.inj h
    rw [hk, hv] at hm
    exact hm

theorem mem_dictSet (d : ReportDict) (k : String) (v : RVal)
    (p : String × RVal) (h : p ∈ dictSet d k v) :
    p = (k, v) ∨ (p ∈ d ∧ p.1 ≠ k) := by
  unfold dictSet at h
  by_cases ha : d.any (fun q => q.1 = k) = true
  · rw [if_pos ha] at h
    obtain ⟨q, hq, hfq⟩ := List.mem_map.mp h
    by_cases hqk : q.1 = k
    · left
      rw [if_pos hqk] at hfq
      exact hfq.symm
    · right
      rw [if_neg hqk] at hfq
      rw [← hfq]
      exact ⟨hq, hqk⟩
  · rw [if_neg ha] at h
    rcases List.mem_append.mp h with h' | h'
    · right
      refine ⟨h', ?_⟩
      intro hk
      apply ha
      exact List.any_eq_true.mpr ⟨p, h', by simpa using hk⟩
    · left
      simpa using h'

theorem mem_dictSet_of_ne (d : ReportDict) (k : String) (v : RVal)
    (p : String × RVal) (hp : p ∈ d) (hne : p.1 ≠ k) :
    p ∈ dictSet d k v := by
  unfold dictSet
  by_cases ha : d.any (fun q => q.1 = k) = true
  · rw [if_pos ha]
    refine List.mem_map.mpr ⟨p, hp, ?_⟩
    rw [if_neg hne]
  · rw [if_neg ha]
    exact List.mem_append.mpr (Or.inl hp)

theorem dictGet_cons (a : String) (b : RVal) (rest : ReportDict)
    (k' : String) :
    dictGet ((a, b) :: rest) k' = if a = k' then some b else dictGet rest k' := by
  unfold dictGet
  by_cases h : a = k'
  · rw [List.find?_cons_of_pos _ (by simpa using h), if_pos h]
    rfl
  · rw [List.find?_cons_of_neg _ (by simpa using h), if_neg h]

theorem dictGet_map_overwrite (k k' : String) (v : RVal) (hne : k' ≠ k)
    (d : ReportDict) :
    dictGet (d.map (fun p => if p.1 = k then (k, v) else p)) k'
      = dictGet d k' := by
  induction d with
  | nil => rfl
  | cons p rest ih =>
    obtain ⟨a, b⟩ := p
    simp only [List.map_cons]
    by_cases hak : a = k
    · rw [if_pos hak, dictGet_cons, dictGet_cons]
      rw [if_neg (fun h => hne h.symm)]
      rw [if_neg (by rw [hak]; exact fun h => hne h.symm)]
      exact ih
    · rw [if_neg hak, dictGet_cons, dictGet_cons]
      by_cases hak' : a = k'
      · rw [if_pos hak', if_pos hak']
      · rw [if_neg hak', if_neg hak']
        exact ih

theorem dictGet_append_single (k k' : String) (v : RVal) (hne : k' ≠ k)
    (d : ReportDict) :
    dictGet (d ++ [(k, v)]) k' = dictGet d k' := by
  induction d with
  | nil =>
    rw [List.nil_append, dictGet_cons, if_neg (fun h => hne h.symm)]
  | cons p rest ih =>
    obtain ⟨a, b⟩ := p
    rw [List.cons_append, dictGet_cons, dictGet_cons]
    by_cases h : a = k'
    · rw [if_pos h, if_pos h]
    · rw [if_neg h, if_neg h]
      exact ih

theorem dictGet_dictSet_ne (d : ReportDict) (k k' : String) (v : RVal)
    (hne : k' ≠ k) : dictGet (dictSet d k v) k' = dictGet d k' := by
  unfold dictSet
  by_cases ha : d.any (fun q => q.1 = k) = true
  · rw [if_pos ha]
    exact dictGet_map_overwrite k k' v hne d
  · rw [if_neg ha]
    exact dictGet_append_single k k' v hne d

theorem serializeEntry_fst (p : String × RVal) :
    (serializeEntry p).1 = p.1 := by
  unfold serializeEntry
  by_cases h1 : isLocal p.2 = true
  · rw [if_pos h1]
  · rw [if_neg h1]
    by_cases h2 : p.1 = "result"
    · rw [if_pos h2]
    · rw [if_neg h2]

theorem dictGet_map_serializeEntry (d : ReportDict) (k : String) :
    dictGet (d.map serializeEntry) k
      = (dictGet d k).map (fun v => (serializeEntry (k, v)).2) := by
  induction d with
  | nil => rfl
  | cons p rest ih =>
    obtain ⟨a, b⟩ := p
    have hfst : (serializeEntry (a, b)).1 = a := serializeEntry_fst (a, b)
    have hpair : serializeEntry (a, b) = (a, (serializeEntry (a, b)).2) := by
      conv_lhs =>
        rw [show serializeEntry (a, b)
            = ((serializeEntry (a, b)).1, (serializeEntry (a, b)).2) from rfl]
      rw [hfst]
    rw [List.map_cons, hpair, dictGet_cons, dictGet_cons]
    by_cases hak : a = k
    · subst hak
      rw [if_pos rfl, if_pos rfl]
      rfl
    · rw [if_neg hak, if_neg hak]
      exact ih

theorem genPairs_snd (ns : List TestItem) (err : Option String) :
    (genPairs ns err).2 = err := by
  cases err <;> rfl

theorem serializedDict_props (rep : ReportDict) (lr' : RVal)
    (h1 : ∀ t, lr' ≠ RVal.vrepr t) (h2 : ∀ n, lr' ≠ RVal.vresult n)
    (hres : ∀ p ∈ rep, (∃ n, p.2 = RVal.vresult n) → p.1 = "result")
    (hrep : ∀ p ∈ rep, (∃ t, p.2 = RVal.vrepr t) → p.1 = "longrepr") :
    (∀ p ∈ (dictSet rep "longrepr" lr').map serializeEntry,
        serializable p.2 = true) ∧
    (∀ r0, dictGet rep "result" = some r0 → isLocal r0 = false →
        dictGet ((dictSet rep "longrepr" lr').map serializeEntry) "result"
          = some RVal.vnone) ∧
    (∀ p ∈ rep, p.1 ≠ "longrepr" → isLocal p.2 = true →
        (p.1, RVal.vstr (strOf p.2))
          ∈ (dictSet rep "longrepr" lr').map serializeEntry) := by
  refine ⟨?_, ?_, ?_⟩
  · intro p hp
    obtain ⟨q, hq, hpq⟩ := List.mem_map.mp hp
    rw [← hpq]
    rcases mem_dictSet _ _ _ q hq with hq1 | ⟨hq2, hqne⟩
    · rw [hq1]
      cases lr' with
      | vstr s => simp [serializeEntry, isLocal, serializable]
      | vnone => simp [serializeEntry, isLocal, serializable]
      | vlocal p => simp [serializeEntry, isLocal, serializable]
      | vrepr t => exact absurd rfl (h1 t)
      | vresult n => exact absurd rfl (h2 n)
    · cases hv : q.2 with
      | vstr s =>
        by_cases hk : q.1 = "result"
        · simp [serializeEntry, hv, isLocal, hk, serializable]
        · simp [serializeEntry, hv, isLocal, hk, serializable]
      | vnone =>
        by_cases hk : q.1 = "result"
        · simp [serializeEntry, hv, isLocal, hk, serializable]
        · simp [serializeEntry, hv, isLocal, hk, serializable]
      | vlocal p' => simp [serializeEntry, hv, isLocal, serializable]
      | vrepr t =>
        exact absurd (hrep q hq2 ⟨t, hv⟩) hqne
      | vresult n =>
        have hk : q.1 = "result" := hres q hq2 ⟨n, hv⟩
        simp [serializeEntry, hv, isLocal, hk, serializable]
  · intro r0 hr0 hloc
    rw [dictGet_map_serializeEntry,
      dictGet_dictSet_ne _ _ _ _ (by decide : "result" ≠ "longrepr"), hr0]
    simp [serializeEntry, hloc]
  · intro p hp hne hloc
    refine List.mem_map.mpr ⟨p, mem_dictSet_of_ne _ _ _ p hp hne, ?_⟩
    have hpair : serializeEntry p = (p.1, (serializeEntry p).2) := by
      conv_lhs =>
        rw [show serializeEntry p
            = ((serializeEntry p).1, (serializeEntry p).2) from rfl]
      rw [serializeEntry_fst]
    rw [hpair]
    simp [serializeEntry, hloc]

theorem step_preserves_quit (op : SlaveOp) (s s' : SlaveState)
    (h : (step s op).2 = some s') (hq : s.quit_signaled = true) :
    s'.quit_signaled = true := by
  cases op with
  | opSendEvent name r =>
    by_cases hd : isDie r = true
    · simp [step, hd] at h
    · simp [step, hd] at h
      rw [← h]
      exact hq
  | opMessage r =>
    by_cases hd : isDie r = true
    · simp [step, hd] at h
    · simp [step, hd] at h
      rw [← h]
      exact hq
  | opCollectionFinish items r =>
    by_cases hd : isDie r = true
    · simp [step, hd] at h
    · simp [step, hd] at h
      rw [← h]
      exact hq
  | opLogstart r =>
    by_cases hd : isDie r = true
    · simp [step, hd] at h
    · simp [step, hd] at h
      rw [← h]
      exact hq
  | opLogreport r =>
    by_cases hd : isDie r = true
    · simp [step, hd] at h
    · simp [step, hd] at h
      rw [← h]
      exact hq
  | opInternalerror r =>
    by_cases hd : isDie r = true
    · simp [step, hd] at h
    · simp [step, hd] at h
      rw [← h]
      exact hq
  | opHandleQuit r =>
    by_cases hd : isDie r = true
    · simp [step, hd] at h
    · simp [step, hd] at h
      rw [← h]
  | opShutdown r1 r2 =>
    by_cases hd1 : isDie r1 = true
    · simp [step, hd1] at h
    · by_cases hd2 : isDie r2 = true
      · simp [step, hd1, hd2] at h
      · simp [step, hd1, hd2] at h
        rw [← h]

/-- The local collection of the worked example: three items collected
under the nodeids `"a"`, `"b"`, `"c"`. -/
def exampleItems : List TestItem :=
  [⟨"a", 0⟩, ⟨"b", 0⟩, ⟨"c", 0⟩]

/-- The worked example's `need_tests` replies: `["a","b"]`, then
`["c"]`, then the empty reply. -/
def exampleBatches : List (List String) :=
  [["a", "b"], ["c"], []]

/-! Claim theorems. -/

/-- C1: for every sequence of test items delivered by the master across
`need_tests` replies (stopping at the first empty reply) and resolved
through the collection without error, the `(current, next)` pairs
yielded by `_test_generator` form a chain in which each pair's first
element equals the previous pair's second element, and (when anything
was delivered) the "no next" marker `none` appears exactly once, as the
second element of the final pair; on the worked example with replies
`["a","b"]`, `["c"]`, `[]` the pairs are `(a,b), (b,c), (c,none)` with
exactly three `need_tests` requests sent. -/
theorem claim_C1_work_pairs_chain
    (coll : String → Option TestItem) (batches : List (List String))
    (hok : (lookupNodes coll (deliveredIds batches)).2 = none) :
    chainLinked (genPairs (lookupNodes coll (deliveredIds batches)).1
        (lookupNodes coll (deliveredIds batches)).2).1 = true ∧
    ((lookupNodes coll (deliveredIds batches)).1 ≠ [] →
      ∃ qs l, (genPairs (lookupNodes coll (deliveredIds batches)).1
          (lookupNodes coll (deliveredIds batches)).2).1
        = qs ++ [(l, none)] ∧
        ∀ p ∈ qs, p.2 ≠ (none : Option TestItem)) ∧
    lookupNodes (buildCollection exampleItems) (deliveredIds exampleBatches)
        = (exampleItems, none) ∧
    (genPairs exampleItems none).1
      = [(⟨"a", 0⟩, some ⟨"b", 0⟩), (⟨"b", 0⟩, some ⟨"c", 0⟩),
          (⟨"c", 0⟩, none)] ∧
    needTestsCount exampleBatches = 3 := by
  rw [hok]
  exact ⟨chainLinked_test_generator _,
    fun h => test_generator_last _ h, by decide, by decide, by decide⟩

/-- Witness for C1 at the worked example's collection and replies. -/
theorem claim_C1_work_pairs_chain_witness :
    chainLinked (genPairs (lookupNodes (buildCollection exampleItems)
          (deliveredIds exampleBatches)).1
        (lookupNodes (buildCollection exampleItems)
          (deliveredIds exampleBatches)).2).1 = true ∧
    ((lookupNodes (buildCollection exampleItems)
        (deliveredIds exampleBatches)).1 ≠ [] →
      ∃ qs l, (genPairs (lookupNodes (buildCollection exampleItems)
            (deliveredIds exampleBatches)).1
          (lookupNodes (buildCollection exampleItems)
            (deliveredIds exampleBatches)).2).1
        = qs ++ [(l, none)] ∧
        ∀ p ∈ qs, p.2 ≠ (none : Option TestItem)) ∧
    lookupNodes (buildCollection exampleItems) (deliveredIds exampleBatches)
        = (exampleItems, none) ∧
    (genPairs exampleItems none).1
      = [(⟨"a", 0⟩, some ⟨"b", 0⟩), (⟨"b", 0⟩, some ⟨"c", 0⟩),
          (⟨"c", 0⟩, none)] ∧
    needTestsCount exampleBatches = 3 :=
  claim_C1_work_pairs_chain (buildCollection exampleItems) exampleBatches
    (by decide)

/-- C2: `send_event`'s result is determined by the master's reply: the
literal `"die"` raises `SystemExit` (and, as the first event of any
operation sequence, stops the whole sequence), the literal `"ack"`
returns no result, and any other reply is returned unchanged. -/
theorem claim_C2_send_event_reply_table (r : JVal) :
    send_event (JVal.jstr "die") = Except.error () ∧
    (∀ s name rest,
      runOps s (SlaveOp.opSendEvent name (JVal.jstr "die") :: rest) = none) ∧
    send_event (JVal.jstr "ack") = Except.ok none ∧
    (r ≠ JVal.jstr "die" → r ≠ JVal.jstr "ack" →
      send_event r = Except.ok (some r)) := by
  refine ⟨rfl, fun s name rest => rfl, rfl, fun h1 h2 => ?_⟩
  unfold send_event
  rw [if_neg h1, if_neg h2]

/-- Witness for C2: a list reply comes back unchanged. -/
theorem claim_C2_send_event_reply_table_witness :
    send_event (JVal.jlist ["t"]) = Except.ok (some (JVal.jlist ["t"])) :=
  (claim_C2_send_event_reply_table (JVal.jlist ["t"])).2.2.2
    (by decide) (by decide)

/-- C3: every item the run loop passes to `pytest_runtest_protocol` has
a nodeid that the master delivered in a `need_tests` reply during this
session; the coordinator never executes a test identifier it did not
receive from the master. -/
theorem claim_C3_executed_only_delivered (items : List TestItem)
    (batches : List (List String)) (qsig : Option Nat) (collectonly : Bool)
    (it : TestItem)
    (h : it ∈ (runOutcome items batches qsig collectonly).1) :
    it.nodeid ∈ deliveredIds batches := by
  simp only [runOutcome] at h
  by_cases hc : collectonly = true
  · rw [if_pos hc] at h
    cases h
  · rw [if_neg hc] at h
    obtain ⟨o, ho⟩ := runLoopIter_mem qsig _ 0 it h
    have hns := genPairs_fst_mem _ _ it o ho
    obtain ⟨id, hid, hcoll⟩ :=
      lookupNodes_mem (buildCollection items) _ it hns
    rw [buildCollection_nodeid items id it hcoll]
    exact hid

/-- Witness for C3 at the worked example: item `a` is executed and its
nodeid was delivered by the master. -/
theorem claim_C3_executed_only_delivered_witness :
    (TestItem.mk "a" 0).nodeid ∈ deliveredIds exampleBatches :=
  claim_C3_executed_only_delivered exampleItems exampleBatches none false
    ⟨"a", 0⟩ (by decide)

/-- C4: when a `need_tests` reply contains an identifier that
`pytest_collection_finish` never recorded, the run (without a quit
signal) surfaces a `KeyError` from `self.collection[nodeid]`, and no
test with that identifier is ever passed to the execution protocol. -/
theorem claim_C4_unknown_id_raises (items : List TestItem)
    (batches : List (List String)) (id : String)
    (hmem : id ∈ deliveredIds batches)
    (hnone : buildCollection items id = none) :
    (runOutcome items batches none false).2 ≠ none ∧
    ∀ it ∈ (runOutcome items batches none false).1, it.nodeid ≠ id := by
  constructor
  · simp only [runOutcome, runLoopIter_no_signal, genPairs_snd]
    exact lookupNodes_missing (buildCollection items) _ id hmem hnone
  · intro it hit heq
    simp only [runOutcome] at hit
    rw [if_neg (by decide : ¬(false = true))] at hit
    obtain ⟨o, ho⟩ := runLoopIter_mem none _ 0 it hit
    have hns := genPairs_fst_mem _ _ it o ho
    obtain ⟨id', hid', hcoll⟩ :=
      lookupNodes_mem (buildCollection items) _ it hns
    have hnid : it.nodeid = id' := buildCollection_nodeid items id' it hcoll
    rw [heq] at hnid
    rw [← hnid] at hcoll
    rw [hnone] at hcoll
    cases hcoll

/-- Witness for C4: the master delivers the unknown id `"zzz"`. -/
theorem claim_C4_unknown_id_raises_witness :
    (runOutcome exampleItems [["a", "zzz"], []] none false).2 ≠ none ∧
    ∀ it ∈ (runOutcome exampleItems [["a", "zzz"], []] none false).1,
      it.nodeid ≠ "zzz" :=
  claim_C4_unknown_id_raises exampleItems [["a", "zzz"], []] "zzz"
    (by decide) (by decide)

/-- C5: for every report dict that has a `longrepr` attribute, whose raw
result objects occur only under the key `"result"`, and whose
`toterminal`-bearing representation objects occur only under
`"longrepr"` (the shape of every pytest `TestReport`),
`serialize_report` returns without raising a dict in which every value
is transport-serializable, the `"result"` entry (when present and not a
path) has been set to `None`, and every `py.path.local` field has been
replaced by its string form. -/
theorem claim_C5_serialize_report_transport_safe (rep : ReportDict)
    (lr : RVal) (hlr : dictGet rep "longrepr" = some lr)
    (hres : ∀ p ∈ rep, (∃ n, p.2 = RVal.vresult n) → p.1 = "result")
    (hrep : ∀ p ∈ rep, (∃ t, p.2 = RVal.vrepr t) → p.1 = "longrepr") :
    ∃ out, serialize_report rep = Except.ok out ∧
      (∀ p ∈ out, serializable p.2 = true) ∧
      (∀ r0, dictGet rep "result" = some r0 → isLocal r0 = false →
        dictGet out "result" = some RVal.vnone) ∧
      (∀ p ∈ rep, p.1 ≠ "longrepr" → isLocal p.2 = true →
        (p.1, RVal.vstr (strOf p.2)) ∈ out) := by
  by_cases htt : hasToTerminal lr = true
  · refine ⟨(dictSet rep "longrepr" (RVal.vstr (strOf lr))).map
      serializeEntry, ?_, ?_⟩
    · simp [serialize_report, hlr, htt]
    · exact serializedDict_props rep (RVal.vstr (strOf lr))
        (fun t h => by cases h) (fun n h => by cases h) hres hrep
  · refine ⟨(dictSet rep "longrepr" lr).map serializeEntry, ?_, ?_⟩
    · simp [serialize_report, hlr, htt]
    · refine serializedDict_props rep lr ?_ ?_ hres hrep
      · intro t h
        rw [h] at htt
        exact htt rfl
      · intro n h
        have hm := dictGet_mem rep "longrepr" lr hlr
        rw [h] at hm
        have hbad : "longrepr" = "result" := hres _ hm ⟨n, rfl⟩
        exact absurd hbad (by decide)

/-- Witness for C5 at a concrete report: a `toterminal` longrepr, a raw
result object and a path field. -/
theorem claim_C5_serialize_report_transport_safe_witness :
    ∃ out, serialize_report
        [("longrepr", RVal.vrepr "tb"), ("result", RVal.vresult 2),
          ("fspath", RVal.vlocal "/t.py"), ("outcome", RVal.vstr "passed")]
      = Except.ok out ∧
      (∀ p ∈ out, serializable p.2 = true) ∧
      (∀ r0, dictGet
          [("longrepr", RVal.vrepr "tb"), ("result", RVal.vresult 2),
            ("fspath", RVal.vlocal "/t.py"), ("outcome", RVal.vstr "passed")]
          "result" = some r0 → isLocal r0 = false →
        dictGet out "result" = some RVal.vnone) ∧
      (∀ p ∈ ([("longrepr", RVal.vrepr "tb"), ("result", RVal.vresult 2),
            ("fspath", RVal.vlocal "/t.py"),
            ("outcome", RVal.vstr "passed")] : ReportDict),
        p.1 ≠ "longrepr" → isLocal p.2 = true →
        (p.1, RVal.vstr (strOf p.2)) ∈ out) :=
  claim_C5_serialize_report_transport_safe
    [("longrepr", RVal.vrepr "tb"), ("result", RVal.vresult 2),
      ("fspath", RVal.vlocal "/t.py"), ("outcome", RVal.vstr "passed")]
    (RVal.vrepr "tb") (by decide)
    (by
      intro p hp hex
      obtain ⟨n, hn⟩ := hex
      simp only [List.mem_cons, List.not_mem_nil, or_false] at hp
      rcases hp with rfl | rfl | rfl | rfl
      · cases hn
      · rfl
      · cases hn
      · cases hn)
    (by
      intro p hp hex
      obtain ⟨t, ht⟩ := hex
      simp only [List.mem_cons, List.not_mem_nil, or_false] at hp
      rcases hp with rfl | rfl | rfl | rfl
      · rfl
      · cases ht
      · cases ht
      · cases ht)

/-- C6: when the quit flag becomes set while test number `j ≥ 1` is
executing, the run loop executes exactly the first `j` pairs' items —
the in-flight test runs to completion (the executed list has length `j`
whenever at least `j` pairs exist) and no later test ever starts,
because the flag is checked once after each completed test. -/
theorem claim_C6_quit_flag_cooperative
    (ps : List (TestItem × Option TestItem)) (j : Nat) (hj : 1 ≤ j) :
    (runLoopIter (some j) ps 0).1 = (ps.map Prod.fst).take j ∧
    (j ≤ ps.length → ((runLoopIter (some j) ps 0).1).length = j) := by
  have h := runLoopIter_signal j ps 0 (by omega)
  rw [Nat.sub_zero] at h
  refine ⟨h, fun hle => ?_⟩
  rw [h, List.length_take, List.length_map]
  omega

/-- Witness for C6: three queued pairs, the signal lands during the
second test; exactly the first two items run. -/
theorem claim_C6_quit_flag_cooperative_witness :
    (runLoopIter (some 2) (genPairs exampleItems none).1 0).1
      = (((genPairs exampleItems none).1).map Prod.fst).take 2 ∧
    (2 ≤ ((genPairs exampleItems none).1).length →
      ((runLoopIter (some 2) (genPairs exampleItems none).1 0).1).length
        = 2) :=
  claim_C6_quit_flag_cooperative (genPairs exampleItems none).1 2
    (by decide)

/-- C7: the quit flag is one-way: across any sequence of coordinator
operations that does not terminate the process, once `quit_signaled` is
true it stays true. -/
theorem claim_C7_quit_flag_one_way (ops : List SlaveOp) (s s' : SlaveState)
    (hq : s.quit_signaled = true) (h : runOps s ops = some s') :
    s'.quit_signaled = true := by
  induction ops generalizing s with
  | nil =>
    simp only [runOps] at h
    rw [← Option.some.inj h]
    exact hq
  | cons op rest ih =>
    simp only [runOps] at h
    cases hs : (step s op).2 with
    | none =>
      rw [hs] at h
      cases h
    | some s1 =>
      rw [hs] at h
      exact ih s1 (step_preserves_quit op s s1 hs hq) h

/-- Witness for C7: a state with the flag set, followed by a message,
a logreport and a collection-finish, still has the flag set. -/
theorem claim_C7_quit_flag_one_way_witness :
    (SlaveState.mk true (some exampleItems)).quit_signaled = true :=
  claim_C7_quit_flag_one_way
    [SlaveOp.opMessage (JVal.jstr "ack"),
      SlaveOp.opLogreport (JVal.jstr "ack"),
      SlaveOp.opCollectionFinish exampleItems (JVal.jstr "ack")]
    (SlaveState.mk true none) (SlaveState.mk true (some exampleItems))
    (by decide) (by decide)

/-- C8: when the first `need_tests` reply is already empty, nothing is
delivered, `_test_generator` yields no pairs (the `StopIteration` from
its first `next` ends the generator silently), the run executes nothing
and raises no error, and exactly one `need_tests` request was sent. -/
theorem claim_C8_first_reply_empty_no_work (items : List TestItem)
    (rest : List (List String)) (qsig : Option Nat) (collectonly : Bool) :
    deliveredIds ([] :: rest) = [] ∧
    genPairs (lookupNodes (buildCollection items)
        (deliveredIds ([] :: rest))).1
      (lookupNodes (buildCollection items) (deliveredIds ([] :: rest))).2
      = ([], none) ∧
    runOutcome items ([] :: rest) qsig collectonly = ([], none) ∧
    needTestsCount ([] :: rest) = 1 := by
  refine ⟨rfl, rfl, ?_, rfl⟩
  unfold runOutcome
  cases collectonly <;> rfl

/-- C9 counterexample: as stated, the claim says the shutdown-signal
handler performs no channel send; but `handle_quit` calls
`self.message(...)`, which sends a `message` event over the socket, so
its sent-event list is not empty. -/
theorem claim_C9_counterexample :
    ¬ ((step initialState (SlaveOp.opHandleQuit (JVal.jstr "ack"))).1
        = []) := by
  decide

/-- C9 (amended): whenever `handle_quit` returns (the master did not
reply `"die"` to its message), it has set the quit flag, changed no
other coordinator state, and sent exactly one `message` event over the
request/reply channel. -/
theorem claim_C9_handler_sets_flag_and_messages (s : SlaveState) (r : JVal)
    (s' : SlaveState)
    (h : (step s (SlaveOp.opHandleQuit r)).2 = some s') :
    s'.quit_signaled = true ∧ s'.sessionItems = s.sessionItems ∧
    (step s (SlaveOp.opHandleQuit r)).1 = ["message"] := by
  by_cases hd : isDie r = true
  · simp [step, hd] at h
  · simp [step, hd] at h
    rw [← h]
    exact ⟨rfl, rfl, rfl⟩

/-- Witness for the amended C9 at the initial state with an `ack`
reply. -/
theorem claim_C9_handler_sets_flag_and_messages_witness :
    (SlaveState.mk true none).quit_signaled = true ∧
    (SlaveState.mk true none).sessionItems = initialState.sessionItems ∧
    (step initialState (SlaveOp.opHandleQuit (JVal.jstr "ack"))).1
      = ["message"] :=
  claim_C9_handler_sets_flag_and_messages initialState (JVal.jstr "ack")
    (SlaveState.mk true none) (by decide)

/-- C10: `serialize_report` operates on a copy of the report's field
mapping (`rep.__dict__.copy()`), every assignment in its body targets
the copy, so after the call the report's own dict — every field,
including the embedded result object and path-valued fields — is
exactly what it was before, while the transmitted dict is the
serialized form. -/
theorem claim_C10_serialize_no_mutation (rep : ReportDict) (st : SerState)
    (h : serializeReportSteps rep = Except.ok st) :
    st.repDict = rep ∧ serialize_report rep = Except.ok st.d := by
  cases hlr : dictGet rep "longrepr" with
  | none =>
    unfold serializeReportSteps at h
    rw [hlr] at h
    cases h
  | some lr =>
    simp only [serializeReportSteps, hlr] at h
    by_cases htt : hasToTerminal lr = true
    · rw [if_pos htt] at h
      have hst := Except.ok.inj h
      refine ⟨?_, ?_⟩
      · rw [← hst]
      · rw [← hst]
        simp [serialize_report, hlr, htt]
    · rw [if_neg htt] at h
      have hst := Except.ok.inj h
      refine ⟨?_, ?_⟩
      · rw [← hst]
      · rw [← hst]
        simp [serialize_report, hlr, htt]

/-- Witness for C10 at a concrete report dict. -/
theorem claim_C10_serialize_no_mutation_witness :
    (SerState.mk
        [("longrepr", RVal.vrepr "tb"), ("result", RVal.vresult 2),
          ("fspath", RVal.vlocal "/t.py")]
        [("longrepr", RVal.vstr "tb"), ("result", RVal.vnone),
          ("fspath", RVal.vstr "/t.py")]).repDict
      = [("longrepr", RVal.vrepr "tb"), ("result", RVal.vresult 2),
          ("fspath", RVal.vlocal "/t.py")] ∧
    serialize_report
        [("longrepr", RVal.vrepr "tb"), ("result", RVal.vresult 2),
          ("fspath", RVal.vlocal "/t.py")]
      = Except.ok (SerState.mk
          [("longrepr", RVal.vrepr "tb"), ("result", RVal.vresult 2),
            ("fspath", RVal.vlocal "/t.py")]
          [("longrepr", RVal.vstr "tb"), ("result", RVal.vnone),
            ("fspath", RVal.vstr "/t.py")]).d :=
  claim_C10_serialize_no_mutation
    [("longrepr", RVal.vrepr "tb"), ("result", RVal.vresult 2),
      ("fspath", RVal.vlocal "/t.py")]
    (SerState.mk
      [("longrepr", RVal.vrepr "tb"), ("result", RVal.vresult 2),
        ("fspath", RVal.vlocal "/t.py")]
      [("longrepr", RVal.vstr "tb"), ("result", RVal.vnone),
        ("fspath", RVal.vstr "/t.py")])
    (by rfl)

end Remote
